import Mathlib

/-!
Verification of the butterfly-backtester core (research/backtester.py and
research/run_.py) against its natural-language specification.

The embedding models pandas/numpy values over exact rationals (ℚ) and dates as
integers (days).  Python positional indexing on a `pd.DatetimeIndex`, including
negative-index wraparound and the out-of-bounds `IndexError`, is modelled by
`pyGet`.  Fallible code returns `Except PyExc`.
-/

/-- Python exception values that the modelled code can raise.  `indexError`
carries the exception message, since `run_.py` dispatches on `str(error)`. -/
inductive PyExc where
  | indexError (msg : String)
  | valueError (msg : String)
  | assertionError
deriving DecidableEq, Repr

/-- The single uniform data-range condition: `IndexError("Out of data range")`. -/
def dataRange : PyExc := PyExc.indexError "Out of data range"

/-- Positional indexing on a pandas `DatetimeIndex` (dates as integers):
nonnegative positions index from the front, negative positions not below
`-len` wrap around from the back, and anything else raises a generic
out-of-bounds `IndexError` (whose message is not the uniform data-range one). -/
def pyGet (l : List Int) (i : Int) : Except PyExc Int :=
  if h : 0 ≤ i ∧ i < (l.length : Int) then
    .ok (l.get ⟨i.toNat, by omega⟩)
  else if h2 : -(l.length : Int) ≤ i ∧ i < 0 then
    .ok (l.get ⟨((l.length : Int) + i).toNat, by omega⟩)
  else
    .error (PyExc.indexError "index out of bounds")

/-- Option type flag: the `PutCall` column. -/
inductive PutCall where
  | put
  | call
deriving DecidableEq, Repr

/-- One row of the per-ticker options-chain dataset, with the columns the
backtester reads (prices, sizes, greeks and the derived moneyness/DTE fields
computed by the cleaning pipeline). -/
structure OptionRow where
  expirationDate : Int
  dataDate : Int
  putCall : PutCall
  strikePrice : ℚ
  underlyingPrice : ℚ
  bidPrice : ℚ
  midPrice : ℚ
  askPrice : ℚ
  bidSize : ℚ
  askSize : ℚ
  dte : Int
  strikeProp : ℚ
  impliedVolatility : ℚ
  delta : ℚ
  vega : ℚ
deriving DecidableEq, Repr

/-- First element attaining the minimal key among `a :: l`, mirroring
`Series.argmin` / `iloc` selection (ties resolved to the earliest row). -/
def argminD {α : Type} (key : α → ℚ) (a : α) : List α → α
  | [] => a
  | b :: t =>
    let m := argminD key b t
    if key a ≤ key m then a else m

/-- First index of the maximum together with the maximum, mirroring
`np.argmax` (ties resolved to the earliest entry).  The `[]` case is never
reached by callers and returns a dummy. -/
def argmaxAux : List Int → Nat × Int
  | [] => (0, 0)
  | [a] => (0, a)
  | a :: b :: t =>
    let p := argmaxAux (b :: t)
    if p.2 ≤ a then (0, a) else (p.1 + 1, p.2)

/-- Position of the first maximum of a list, as `np.argmax` computes it. -/
def argmaxIdx (l : List Int) : Nat := (argmaxAux l).1

/-- First index at which `e` occurs, mirroring `np.where(tdays == edate)[0][0]`
(`none` models the `IndexError` taken from the empty match). -/
def findIdxQ (e : Int) : List Int → Option Nat
  | [] => none
  | a :: t => if a = e then some 0 else (findIdxQ e t).map (· + 1)

/-- Embedding of `ButterflyBacktester.__fix_edate`: locate the earnings date in
the trading calendar (first exact match, as `np.where` does); when absent, take
the position of the largest negative date difference (`np.argmax` over the
filtered differences) and drop the before-market-open shift; when present and
the call is before market open, decrement the index by one.  Returns the final
`edate_idx` (which Python allows to be `-1`) and the resolved anchor date
`tdays[edate_idx]`. -/
def negDiffs (tdays : List Int) (edate : Int) : List Int :=
  (tdays.map (fun d => d - edate)).filter (fun x => decide (x < 0))

def fixEdate (tdays : List Int) (edate : Int) (bmo : Bool) : Except PyExc (Int × Int) :=
  match findIdxQ edate tdays with
  | some i =>
    Except.map (fun d => (if bmo then (i : Int) - 1 else (i : Int), d))
      (pyGet tdays (if bmo then (i : Int) - 1 else (i : Int)))
  | none =>
    if (negDiffs tdays edate).isEmpty then
      .error dataRange
    else
      Except.map (fun d => ((argmaxIdx (negDiffs tdays edate) : Int), d))
        (pyGet tdays (argmaxIdx (negDiffs tdays edate) : Int))

/-- Embedding of `ButterflyBacktester.__get_expiry`: look `min_days_expiry`
trading days past the anchor index (any `IndexError` there is re-raised with
the uniform data-range message), filter the full dataset to that observation
date, and take the expiration date of the row with the smallest absolute DTE
(`ValueError` on an empty frame, as `Series.argmin` raises). -/
def getExpiry (data : List OptionRow) (tdays : List Int) (edateIdx minDaysExpiry : Int) :
    Except PyExc Int :=
  match pyGet tdays (edateIdx + minDaysExpiry) with
  | .error _ => .error dataRange
  | .ok earliest =>
    match data.filter (fun r => r.dataDate == earliest) with
    | [] => .error (PyExc.valueError "attempt to get argmin of an empty sequence")
    | r :: rest => .ok (argminD (fun x => |(x.dte : ℚ)|) r rest).expirationDate

/-- The holding period the code actually uses: the configured one, clamped to
the calendar-day gap minus one only when it strictly exceeds that gap
(`__get_exit_date` lines 168-170). -/
def effectiveHolding (holdingPeriod toExpiry : Int) : Int :=
  if toExpiry < holdingPeriod then toExpiry - 1 else holdingPeriod

/-- Embedding of `ButterflyBacktester.__get_exit_date`: index the trading
calendar at `edate_idx + effective holding period`, with no exception
wrapping (an out-of-range position raises the generic `IndexError`). -/
def getExitDate (tdays : List Int) (edate expiry edateIdx holdingPeriod : Int) :
    Except PyExc Int :=
  pyGet tdays (edateIdx + effectiveHolding holdingPeriod (expiry - edate))

/-- Underlying price of the first row observed on a given date, if any
(`.iloc[0]` after a `DataDate` filter). -/
def firstUnderlying (rows : List OptionRow) (d : Int) : Option ℚ :=
  ((rows.filter (fun r => r.dataDate == d)).head?).map (fun r => r.underlyingPrice)

/-- Embedding of `ButterflyBacktester.__get_underlying_prices`: look the final
(expiry-date) and entry (anchor-date) underlying prices up in the expiry slice
first, fall back to the full dataset, and raise the uniform data-range error
when both fail.  Returns `(entry_price, final_price)`. -/
def getUnderlyingPrices (dfSlice optionData : List OptionRow) (expiry edate : Int) :
    Except PyExc (ℚ × ℚ) :=
  match firstUnderlying dfSlice expiry, firstUnderlying dfSlice edate with
  | some f, some e => .ok (e, f)
  | _, _ =>
    match firstUnderlying optionData expiry, firstUnderlying optionData edate with
    | some f, some e => .ok (e, f)
    | _, _ => .error dataRange

/-- Intrinsic value of an option row (`intrinsic_value` helper):
`max(0, underlying - strike)` for calls, `max(0, strike - underlying)` for puts. -/
def intrinsicValue (row : OptionRow) (flag : PutCall) : ℚ :=
  match flag with
  | .call => max 0 (row.underlyingPrice - row.strikePrice)
  | .put => max 0 (row.strikePrice - row.underlyingPrice)

/-- Value at expiration against the recorded final underlying price
(`expiration_value` helper). -/
def expirationValue (strike : ℚ) (flag : PutCall) (finalPrice : ℚ) : ℚ :=
  match flag with
  | .call => max 0 (finalPrice - strike)
  | .put => max 0 (strike - finalPrice)

/-- The `1/4` column: `(BidPrice + MidPrice) / 2`, the modelled sell price. -/
def quarterPrice (row : OptionRow) : ℚ := (row.bidPrice + row.midPrice) / 2

/-- The `3/4` column: `(MidPrice + AskPrice) / 2`, the modelled buy price. -/
def threeQuarterPrice (row : OptionRow) : ℚ := (row.midPrice + row.askPrice) / 2

/-- Everything `get_single_contract_info` stores for one leg. -/
structure ContractInfo where
  strike : ℚ
  entryPrice : ℚ
  entrySize : ℚ
  entryIV : ℚ
  entryVega : ℚ
  entryIntrinsic : ℚ
  exitPrice : ℚ
  exitSize : ℚ
  exitIV : ℚ
  exitVega : ℚ
  exitIntrinsic : ℚ
  expirationValue : ℚ
deriving DecidableEq, Repr

/-- Entry-row selection for one leg: among the flag-filtered slice rows
observed on the anchor date, the row whose `StrikeProp` is closest to the
target (first one on ties); `none` when no row exists on that date. -/
def selectEntry (dfFlag : List OptionRow) (edate : Int) (target : ℚ) : Option OptionRow :=
  match dfFlag.filter (fun r => r.dataDate == edate) with
  | [] => none
  | a :: rest => some (argminD (fun r => |r.strikeProp - target|) a rest)

/-- Exit-row selection for one leg: rows of the flag-filtered slice on the exit
date with the entry strike; zero rows is the uniform data-range error, several
rows must all be identical (the source's `assert`, an `AssertionError`
otherwise) and the first is taken. -/
def selectExit (dfFlag : List OptionRow) (exitDate : Int) (strike : ℚ) :
    Except PyExc OptionRow :=
  match dfFlag.filter (fun r => r.dataDate == exitDate && r.strikePrice == strike) with
  | [] => .error dataRange
  | e :: rest => if rest.all (fun x => x == e) then .ok e else .error PyExc.assertionError

/-- Embedding of `get_single_contract_info` (inside
`__get_all_contract_info`): resolve the entry and exit rows for one leg and
store its prices, sizes, greeks, intrinsic values, and expiration value.  A
wing buys at the `3/4` price and sells at the intrinsic-floored `1/4` price; a
body is the mirror image. -/
def getSingleContractInfo (dfSlice : List OptionRow) (edate exitDate : Int)
    (finalPrice : ℚ) (wing : Bool) (flag : PutCall) (target : ℚ) :
    Except PyExc ContractInfo :=
  match selectEntry (dfSlice.filter (fun r => r.putCall == flag)) edate target with
  | none => .error dataRange
  | some entry =>
    match selectExit (dfSlice.filter (fun r => r.putCall == flag)) exitDate
        entry.strikePrice with
    | .error e => .error e
    | .ok ex =>
      let entryIntr := intrinsicValue entry flag
      let exitIntr := intrinsicValue ex flag
      .ok { strike := entry.strikePrice
          , entryPrice := if wing then threeQuarterPrice entry
                          else max entryIntr (quarterPrice entry)
          , entrySize := if wing then entry.askSize else entry.bidSize
          , entryIV := entry.impliedVolatility
          , entryVega := entry.vega
          , entryIntrinsic := entryIntr
          , exitPrice := if wing then max exitIntr (quarterPrice ex)
                         else threeQuarterPrice ex
          , exitSize := if wing then ex.bidSize else ex.askSize
          , exitIV := ex.impliedVolatility
          , exitVega := ex.vega
          , exitIntrinsic := exitIntr
          , expirationValue := expirationValue entry.strikePrice flag finalPrice }

/-- Constructor arguments of `ButterflyBacktester.__init__`. -/
structure BTInput where
  optionData : List OptionRow
  earningsDate : Int
  tdays : List Int
  beforeMarketOpen : Bool
  holdingPeriod : Int
  wingWidth : ℚ
  minDaysExpiry : Int
deriving Repr

/-- The state the constructor leaves behind: resolved dates and indices, the
expiry slice, underlying prices, and the four resolved legs in the source's
dictionary order. -/
structure BTState where
  tdays : List Int
  edateIdx : Int
  edate : Int
  expiry : Int
  df : List OptionRow
  exitDate : Int
  entryPrice : ℚ
  finalPrice : ℚ
  wingWidth : ℚ
  otmPut : ContractInfo
  atmPut : ContractInfo
  atmCall : ContractInfo
  otmCall : ContractInfo
deriving DecidableEq, Repr

/-- Embedding of the whole `ButterflyBacktester.__init__` pipeline: fix the
earnings date, choose the expiry, slice the chain, resolve the exit date and
the underlying prices, and resolve the four legs in dictionary order (the
first failing leg's exception surfaces, as in the Python loop). -/
def expirySlice (data : List OptionRow) (expiry : Int) : List OptionRow :=
  data.filter (fun r => r.expirationDate == expiry)

def mkBacktester (inp : BTInput) : Except PyExc BTState :=
  match fixEdate inp.tdays inp.earningsDate inp.beforeMarketOpen with
  | .error e => .error e
  | .ok (eIdx, eDate) =>
    match getExpiry inp.optionData inp.tdays eIdx inp.minDaysExpiry with
    | .error e => .error e
    | .ok expiry =>
      match getExitDate inp.tdays eDate expiry eIdx inp.holdingPeriod with
      | .error e => .error e
      | .ok exitD =>
        match getUnderlyingPrices (expirySlice inp.optionData expiry) inp.optionData expiry eDate with
        | .error e => .error e
        | .ok (entryP, finalP) =>
          match getSingleContractInfo (expirySlice inp.optionData expiry) eDate exitD finalP true .put (1 - inp.wingWidth),
                getSingleContractInfo (expirySlice inp.optionData expiry) eDate exitD finalP false .put 1,
                getSingleContractInfo (expirySlice inp.optionData expiry) eDate exitD finalP false .call 1,
                getSingleContractInfo (expirySlice inp.optionData expiry) eDate exitD finalP true .call (1 + inp.wingWidth) with
          | .error e, _, _, _ => .error e
          | .ok _, .error e, _, _ => .error e
          | .ok _, .ok _, .error e, _ => .error e
          | .ok _, .ok _, .ok _, .error e => .error e
          | .ok c1, .ok c2, .ok c3, .ok c4 =>
            .ok { tdays := inp.tdays
                , edateIdx := eIdx
                , edate := eDate
                , expiry := expiry
                , df := expirySlice inp.optionData expiry
                , exitDate := exitD
                , entryPrice := entryP
                , finalPrice := finalP
                , wingWidth := inp.wingWidth
                , otmPut := c1
                , atmPut := c2
                , atmCall := c3
                , otmCall := c4 }

/-- Embedding of the static `__curve_calc_disc`: on a day-slice, the "ATM put"
and "ATM call" rows are the argmins of `|Delta + 0.5|` and `|Delta - 0.5|`
over the WHOLE slice (the source does not restrict these two lookups to the
put or call side), the OTM rows are the argmins of `|StrikeProp - 0.9|` over
puts and `|StrikeProp - 1.1|` over calls, and the result is OTM vol over ATM
vol.  An empty slice, or a slice lacking puts or calls, raises the uniform
data-range error.  (When the ATM average is zero Python would raise a
`ZeroDivisionError`; rational division returns 0 there, a point no claim
touches.) -/
def curveCalcDisc (df : List OptionRow) : Except PyExc ℚ :=
  match df with
  | [] => .error dataRange
  | d :: rest =>
    match (d :: rest).filter (fun r => r.putCall == PutCall.put),
          (d :: rest).filter (fun r => r.putCall == PutCall.call) with
    | [], _ => .error dataRange
    | _ :: _, [] => .error dataRange
    | p :: ps, c :: cs =>
      .ok ((((argminD (fun r => |r.strikeProp - 9/10|) p ps).impliedVolatility
             + (argminD (fun r => |r.strikeProp - 11/10|) c cs).impliedVolatility) / 2)
           / (((argminD (fun r => |r.delta + 1/2|) d rest).impliedVolatility
             + (argminD (fun r => |r.delta - 1/2|) d rest).impliedVolatility) / 2))

/-- Quadratic coefficient of the least-squares degree-2 fit of `y` against
`x` over the given points (the `np.polyfit(..., 2)` call in
`__curve_calc_cont`), solved through the normal equations; a singular system
models the `RankWarning` path, escalated to the uniform data-range error by
the source's warning filter. -/
def quadCoeff (pts : List (ℚ × ℚ)) : Except PyExc ℚ :=
  let n : ℚ := pts.length
  let s1 := (pts.map (fun p => p.1)).sum
  let s2 := (pts.map (fun p => p.1 ^ 2)).sum
  let s3 := (pts.map (fun p => p.1 ^ 3)).sum
  let s4 := (pts.map (fun p => p.1 ^ 4)).sum
  let t0 := (pts.map (fun p => p.2)).sum
  let t1 := (pts.map (fun p => p.1 * p.2)).sum
  let t2 := (pts.map (fun p => p.1 ^ 2 * p.2)).sum
  let det := s4 * (s2 * n - s1 * s1) - s3 * (s3 * n - s1 * s2) + s2 * (s3 * s1 - s2 * s2)
  if det = 0 then .error dataRange
  else .ok ((t2 * (s2 * n - s1 * s1) - s3 * (t1 * n - t0 * s1) + s2 * (t1 * s1 - t0 * s2)) / det)

/-- Embedding of the static `__curve_calc_cont`: split the slice into the put
side (moneyness ≤ 1) and the call side (moneyness ≥ 1), require both
non-empty, and return the quadratic coefficient of the fit of implied vol
against `log(StrikeProp)`.  The logarithm, an external `np.log`, is passed in
as a function parameter `lg`. -/
def curveCalcCont (lg : ℚ → ℚ) (df : List OptionRow) : Except PyExc ℚ :=
  match df.filter (fun r => r.putCall == PutCall.put && decide (r.strikeProp ≤ 1)),
        df.filter (fun r => r.putCall == PutCall.call && decide (1 ≤ r.strikeProp)) with
  | [], _ => .error dataRange
  | _ :: _, [] => .error dataRange
  | p :: ps, c :: cs =>
    quadCoeff (((p :: ps) ++ (c :: cs)).map (fun r => (lg r.strikeProp, r.impliedVolatility)))

/-- List-of-characters prefix comparison used by `strHas`. -/
def leadEq : List Char → List Char → Bool
  | [], _ => true
  | _ :: _, [] => false
  | a :: s, b :: t => a == b && leadEq s t

/-- Substring occurrence on character lists. -/
def hasSub (sub : List Char) : List Char → Bool
  | [] => sub.isEmpty
  | a :: t => leadEq sub (a :: t) || hasSub sub t

/-- Python's `sub in s` on strings, used by the `'disc' in method` dispatch. -/
def strHas (s sub : String) : Bool := hasSub sub.toList s.toList

/-- The liquidity restriction applied inside `curve_changes` (positive bid,
ask, bid size and ask size), then sliced to a single observation date. -/
def liquidSlice (st : BTState) (d : Int) : List OptionRow :=
  (st.df.filter (fun r => decide (0 < r.bidPrice) && decide (0 < r.askPrice)
      && decide (0 < r.bidSize) && decide (0 < r.askSize))).filter
    (fun r => r.dataDate == d)

/-- The pair `curve_changes` returns: curvature change leading into earnings
and curvature change after earnings. -/
structure CurveChanges where
  changeBefore : ℚ
  changeAfter : ℚ
deriving DecidableEq, Repr

/-- Embedding of `ButterflyBacktester.curve_changes`: dispatch the curvature
method on a substring match, drop illiquid rows, look the before/after dates
up by raw positional indexing (line 416-417 of the source: no exception
wrapping, so out-of-range positions raise the generic `IndexError` while
small negative positions silently wrap), slice the three days, and return the
two curvature differences. -/
def curveChanges (lg : ℚ → ℚ) (st : BTState) (method : String)
    (daysBefore daysAfter : Int) : Except PyExc CurveChanges :=
  match (if strHas method "disc" then some curveCalcDisc
         else if strHas method "cont" then some (curveCalcCont lg)
         else none) with
  | none => .error (PyExc.valueError "Invalid curve calculation method")
  | some calcFn =>
    match pyGet st.tdays (st.edateIdx - daysBefore) with
    | .error e => .error e
    | .ok beforeDate =>
      match pyGet st.tdays (st.edateIdx + daysAfter) with
      | .error e => .error e
      | .ok afterDate =>
        match calcFn (liquidSlice st beforeDate),
              calcFn (liquidSlice st afterDate),
              calcFn (liquidSlice st st.edate) with
        | .error e, _, _ => .error e
        | .ok _, .error e, _ => .error e
        | .ok _, .ok _, .error e => .error e
        | .ok beforeCurve, .ok afterCurve, .ok earningsCurve =>
          .ok ⟨earningsCurve - beforeCurve, afterCurve - earningsCurve⟩

/-- Python's `int()` applied to a float/rational: truncation toward zero. -/
def pyInt (q : ℚ) : Int := if q < 0 then ⌈q⌉ else ⌊q⌋

/-- The four legs in the dictionary's insertion order, each tagged with its
`wing` flag (`name[0] == 'O'`). -/
def legPairs (st : BTState) : List (Bool × ContractInfo) :=
  [(true, st.otmPut), (false, st.atmPut), (false, st.atmCall), (true, st.otmCall)]

/-- The entry size used by `pnl` and `avg_exit_size_ratio`: the minimum entry
size across the four legs. -/
def minEntrySize (st : BTState) : ℚ :=
  min (min (min st.otmPut.entrySize st.atmPut.entrySize) st.atmCall.entrySize)
    st.otmCall.entrySize

/-- Embedding of `ButterflyBacktester.pnl`: the entered contract count is
`int(min entry size * entry_size_ratio)`; zero means no trade.  Per leg, the
contracts that could not be offloaded at exit are held to expiration; wings
keep the sign of their profit and bodies are negated; the total is scaled by
the 100-share contract multiplier. -/
def pnl (st : BTState) (entrySizeRatio : ℚ) : ℚ :=
  let n : Int := pyInt (minEntrySize st * entrySizeRatio)
  if n = 0 then 0
  else
    ((legPairs st).foldl (fun acc p =>
      let c := p.2
      let remainder : ℚ := max 0 ((n : ℚ) - c.exitSize)
      let offloaded : ℚ := (n : ℚ) - remainder
      let mainPnl := (c.exitPrice - c.entryPrice) * offloaded
      let leftoverPnl := (c.expirationValue - c.entryPrice) * remainder
      acc + (if p.1 then mainPnl + leftoverPnl else -(mainPnl + leftoverPnl))) 0) * 100

/-- Embedding of `ButterflyBacktester.avg_exit_size_ratio`: `np.nan` (modelled
as `none`) when the minimum entry size is zero, otherwise the mean over the
four legs of `min(1, exit size / minimum entry size)`. -/
def avgExitSizeRatio (st : BTState) : Option ℚ :=
  if minEntrySize st = 0 then none
  else
    some ((((legPairs st).map (fun p => min 1 (p.2.exitSize / minEntrySize st))).sum)
      / (((legPairs st).map (fun p => min 1 (p.2.exitSize / minEntrySize st))).length))

/-- One metric call inside `backtest_by_ticker_template`: a raised
`IndexError("Out of data range")` skips just this metric (the cell stays
empty, modelled as `none`); any other exception propagates. -/
def runMetric {α : Type} (x : Except PyExc α) : Except PyExc (Option α) :=
  match x with
  | .ok a => .ok (some a)
  | .error (PyExc.indexError msg) =>
    if msg = "Out of data range" then .ok none else .error (PyExc.indexError msg)
  | .error e => .error e

/-- The metric loop of `backtest_by_ticker_template` for one constructed
event: metrics run left to right, and the first non-data-range exception
aborts the remaining ones. -/
def runMetrics {α : Type} (metrics : List (BTState → Except PyExc α)) (st : BTState) :
    Except PyExc (List (Option α)) :=
  match metrics with
  | [] => .ok []
  | f :: fs =>
    match runMetric (f st) with
    | .error e => .error e
    | .ok r => (runMetrics fs st).map (fun rs => r :: rs)

/-- One earnings date inside `backtest_by_ticker_template`: a
`IndexError("Out of data range")` from the constructor skips the whole event
(its row stays empty, modelled as `none`); any other exception propagates;
otherwise the metric loop runs. -/
def runEvent {Ev α : Type} (construct : Ev → Except PyExc BTState)
    (metrics : List (BTState → Except PyExc α)) (ev : Ev) :
    Except PyExc (Option (List (Option α))) :=
  match construct ev with
  | .error (PyExc.indexError msg) =>
    if msg = "Out of data range" then .ok none else .error (PyExc.indexError msg)
  | .error e => .error e
  | .ok st => (runMetrics metrics st).map some

/-- Embedding of the event loop of `backtest_by_ticker_template`
(run_.py lines 128-161): each earnings date is constructed and its metrics
run; data-range conditions skip an event or a metric, anything else aborts
the whole ticker batch. -/
def backtestByTickerTemplate {Ev α : Type} (construct : Ev → Except PyExc BTState)
    (metrics : List (BTState → Except PyExc α)) :
    List Ev → Except PyExc (List (Option (List (Option α))))
  | [] => .ok []
  | ev :: rest =>
    match runEvent construct metrics ev with
    | .error e => .error e
    | .ok row =>
      match backtestByTickerTemplate construct metrics rest with
      | .error e => .error e
      | .ok rows => .ok (row :: rows)

instance {ε α : Type} [DecidableEq ε] [DecidableEq α] : DecidableEq (Except ε α) := fun a b =>
  match a, b with
  | .ok x, .ok y =>
    if h : x = y then .isTrue (by rw [h])
    else .isFalse (by intro hc; injection hc; exact h (by assumption))
  | .error x, .error y =>
    if h : x = y then .isTrue (by rw [h])
    else .isFalse (by intro hc; injection hc; exact h (by assumption))
  | .ok _, .error _ => .isFalse (by intro hc; exact Except.noConfusion hc)
  | .error _, .ok _ => .isFalse (by intro hc; exact Except.noConfusion hc)

/-- Row builder for the test datasets: expiration date, observation date,
put/call flag, strike, moneyness, delta, ask size and DTE vary; the
underlying is pinned at 100, the quote at bid 1 / mid 3/2 / ask 2, bid size
10, implied vol 3/10 and vega 1/10. -/
def mkRow (expd dd : Int) (pc : PutCall) (strike prop delta asz : ℚ) (dte : Int) :
    OptionRow :=
  { expirationDate := expd, dataDate := dd, putCall := pc, strikePrice := strike
  , underlyingPrice := 100, bidPrice := 1, midPrice := 3/2, askPrice := 2
  , bidSize := 10, askSize := asz, dte := dte, strikeProp := prop
  , impliedVolatility := 3/10, delta := delta, vega := 1/10 }

/-- A well-behaved five-day dataset: quotes for strikes 90/100/110 on the
anchor day 0 and the exit day 1, plus an expiry-day observation on day 4,
all in the expiry-4 chain.  The OTM put's ask size is 1, making the minimum
entry size across legs equal to 1. -/
def dataA : List OptionRow :=
  [ mkRow 4 0 .put 90 (9/10) (-1/5) 1 4
  , mkRow 4 0 .put 100 1 (-2/5) 10 4
  , mkRow 4 0 .call 100 1 (1/2) 10 4
  , mkRow 4 0 .call 110 (11/10) (1/5) 10 4
  , mkRow 4 1 .put 90 (9/10) (-1/5) 1 3
  , mkRow 4 1 .put 100 1 (-2/5) 10 3
  , mkRow 4 1 .call 100 1 (1/2) 10 3
  , mkRow 4 1 .call 110 (11/10) (1/5) 10 3
  , mkRow 4 4 .call 100 1 (1/2) 10 0 ]

def inputA : BTInput :=
  { optionData := dataA, earningsDate := 0, tdays := [0, 1, 2, 3, 4]
  , beforeMarketOpen := false, holdingPeriod := 1, wingWidth := 1/10
  , minDaysExpiry := 1 }

def stA : BTState := ((mkBacktester inputA).toOption).get (by with_unfolding_all decide)

/-- A dense four-day calendar where the configured holding period exactly
equals the calendar-day gap from anchor to expiry: quotes on the anchor day 0,
an observation on day 1 for expiry selection, and expiry-day quotes on day 3
(DTE 0 rows, as real chains have on their expiration day). -/
def dataB : List OptionRow :=
  [ mkRow 3 0 .put 90 (9/10) (-1/5) 10 3
  , mkRow 3 0 .put 100 1 (-2/5) 10 3
  , mkRow 3 0 .call 100 1 (1/2) 10 3
  , mkRow 3 0 .call 110 (11/10) (1/5) 10 3
  , mkRow 3 1 .call 100 1 (1/2) 10 2
  , mkRow 3 3 .put 90 (9/10) (-1/5) 10 0
  , mkRow 3 3 .put 100 1 (-2/5) 10 0
  , mkRow 3 3 .call 100 1 (1/2) 10 0
  , mkRow 3 3 .call 110 (11/10) (1/5) 10 0 ]

def inputB : BTInput :=
  { optionData := dataB, earningsDate := 0, tdays := [0, 1, 2, 3]
  , beforeMarketOpen := false, holdingPeriod := 3, wingWidth := 1/10
  , minDaysExpiry := 1 }

/-- A two-day calendar whose first entry is the earnings date of a
before-market-open event: the anchor index decrements to -1, which Python
wraps to the LAST calendar entry.  Quotes exist on both days for all four
strikes of the day-5 chain. -/
def dataC : List OptionRow :=
  [ mkRow 5 0 .put 90 (9/10) (-1/5) 10 5
  , mkRow 5 0 .put 100 1 (-2/5) 10 5
  , mkRow 5 0 .call 100 1 (1/2) 10 5
  , mkRow 5 0 .call 110 (11/10) (1/5) 10 5
  , mkRow 5 5 .put 90 (9/10) (-1/5) 10 0
  , mkRow 5 5 .put 100 1 (-2/5) 10 0
  , mkRow 5 5 .call 100 1 (1/2) 10 0
  , mkRow 5 5 .call 110 (11/10) (1/5) 10 0 ]

def inputC : BTInput :=
  { optionData := dataC, earningsDate := 0, tdays := [0, 5]
  , beforeMarketOpen := true, holdingPeriod := 1, wingWidth := 1/10
  , minDaysExpiry := 1 }

/-- Modelled from the spec claim's words (C3, as stated): ATM vol averages the
put whose delta is closest to -0.5 and the call whose delta is closest to
+0.5 — each selected from its OWN side; OTM vol averages the put closest to
90% moneyness and the call closest to 110%; the result is OTM vol over ATM
vol, with the data-range error when the slice is empty or lacks either side. -/
def curveCalcDiscSpec (df : List OptionRow) : Except PyExc ℚ :=
  match df, df.filter (fun r => r.putCall == PutCall.put),
        df.filter (fun r => r.putCall == PutCall.call) with
  | [], _, _ => .error dataRange
  | _ :: _, [], _ => .error dataRange
  | _ :: _, _ :: _, [] => .error dataRange
  | _ :: _, p :: ps, c :: cs =>
    .ok ((((argminD (fun r => |r.strikeProp - 9/10|) p ps).impliedVolatility
           + (argminD (fun r => |r.strikeProp - 11/10|) c cs).impliedVolatility) / 2)
         / (((argminD (fun r => |r.delta + 1/2|) p ps).impliedVolatility
           + (argminD (fun r => |r.delta - 1/2|) c cs).impliedVolatility) / 2))

/-- Modelled from the spec claim's words, amended to what the code computes:
identical to the claim except that the two ATM rows are the delta-argmins
over the WHOLE slice, so either may be of either option type. -/
def curveCalcDiscAmended (df : List OptionRow) : Except PyExc ℚ :=
  match df, df.filter (fun r => r.putCall == PutCall.put),
        df.filter (fun r => r.putCall == PutCall.call) with
  | [], _, _ => .error dataRange
  | _ :: _, [], _ => .error dataRange
  | _ :: _, _ :: _, [] => .error dataRange
  | d :: rest, p :: ps, c :: cs =>
    .ok ((((argminD (fun r => |r.strikeProp - 9/10|) p ps).impliedVolatility
           + (argminD (fun r => |r.strikeProp - 11/10|) c cs).impliedVolatility) / 2)
         / (((argminD (fun r => |r.delta + 1/2|) d rest).impliedVolatility
           + (argminD (fun r => |r.delta - 1/2|) d rest).impliedVolatility) / 2))

/-- A two-row liquid day-slice: a far-out-of-the-money call (delta 0) listed
before a deep-in-the-money put (delta -1).  Both delta distances to -0.5 are
exactly 1/2, so the combined-frame argmin picks the CALL for the "ATM put"
role. -/
def discSlice : List OptionRow :=
  [ { expirationDate := 4, dataDate := 0, putCall := PutCall.call, strikePrice := 100
    , underlyingPrice := 100, bidPrice := 1, midPrice := 3/2, askPrice := 2
    , bidSize := 10, askSize := 10, dte := 4, strikeProp := 1
    , impliedVolatility := 1/5, delta := 0, vega := 1/10 }
  , { expirationDate := 4, dataDate := 0, putCall := PutCall.put, strikePrice := 100
    , underlyingPrice := 100, bidPrice := 1, midPrice := 3/2, askPrice := 2
    , bidSize := 10, askSize := 10, dte := 4, strikeProp := 1
    , impliedVolatility := 3/5, delta := -1, vega := 1/10 } ]

/-- Modelled from the spec claim's words (C4, as stated): entry contract count
is the FLOOR of the minimum entry size times the ratio; zero means no trade;
otherwise 100 times the signed sum over the legs of
`(exit - entry) * min(count, exitSize) + (expirationValue - entry) * max(0, count - exitSize)`,
bodies negated. -/
def pnlClaimFloor (st : BTState) (r : ℚ) : ℚ :=
  let n : Int := ⌊minEntrySize st * r⌋
  if n = 0 then 0
  else
    100 * ((legPairs st).map (fun p =>
      let c := p.2
      let contrib := (c.exitPrice - c.entryPrice) * min (n : ℚ) c.exitSize
        + (c.expirationValue - c.entryPrice) * max 0 ((n : ℚ) - c.exitSize)
      if p.1 then contrib else -contrib)).sum

/-- Modelled from the spec claim's words, amended to what the code computes:
identical to the claim's formula except that the entry contract count is
Python's `int()` truncation toward zero rather than the floor. -/
def pnlAmendedModel (st : BTState) (r : ℚ) : ℚ :=
  let n : Int := pyInt (minEntrySize st * r)
  if n = 0 then 0
  else
    100 * ((legPairs st).map (fun p =>
      let c := p.2
      let contrib := (c.exitPrice - c.entryPrice) * min (n : ℚ) c.exitSize
        + (c.expirationValue - c.entryPrice) * max 0 ((n : ℚ) - c.exitSize)
      if p.1 then contrib else -contrib)).sum

/-- A second, distinct constructed state used by the batch-runner witness. -/
def stA2 : BTState := { stA with entryPrice := 999 }

/-- Concrete constructor behaviour for the batch-runner witness: event 1 hits
a data-range condition at construction, event 2 constructs, event 3 raises a
configuration error, event 4 constructs a different state. -/
def constructW : Nat → Except PyExc BTState := fun n =>
  if n = 1 then .error dataRange
  else if n = 2 then .ok stA
  else if n = 3 then .error (PyExc.valueError "bad config")
  else .ok stA2

/-- Concrete first metric for the batch-runner witness: a data-range condition
on the state from event 2, a non-data-range error on the state from event 4. -/
def fW : BTState → Except PyExc ℚ := fun s =>
  if s.entryPrice = 999 then .error (PyExc.valueError "boom") else .error dataRange

/-- Concrete second metric for the batch-runner witness: always succeeds. -/
def gW : BTState → Except PyExc ℚ := fun _ => .ok 7

theorem pyGet_ok_nonneg {l : List Int} {i : Int} {d : Int} (h0 : 0 ≤ i)
    (h : pyGet l i = .ok d) : ∃ hh : i.toNat < l.length, d = l.get ⟨i.toNat, hh⟩ := by
  unfold pyGet at h
  split at h
  · rename_i hc
    exact ⟨by omega, by injection h with h; exact h.symm⟩
  · split at h
    · omega
    · exact absurd h (by simp)

theorem pyGet_ok_neg {l : List Int} {i : Int} {d : Int} (h0 : i < 0)
    (hlen : -(l.length : Int) ≤ i) (h : pyGet l i = .ok d) :
    ∃ hh : ((l.length : Int) + i).toNat < l.length,
      d = l.get ⟨((l.length : Int) + i).toNat, hh⟩ := by
  unfold pyGet at h
  split at h
  · omega
  · split at h
    · exact ⟨by omega, by injection h with h; exact h.symm⟩
    · omega

theorem argmaxIdx_lt_length (l : List Int) (h : l ≠ []) : argmaxIdx l < l.length := by
  induction l with
  | nil => exact absurd rfl h
  | cons a t ih =>
    cases t with
    | nil => simp [argmaxIdx, argmaxAux]
    | cons b t2 =>
      have hb : argmaxIdx (b :: t2) < (b :: t2).length := ih (by simp)
      unfold argmaxIdx at hb ⊢
      rw [argmaxAux]
      by_cases hc : (argmaxAux (b :: t2)).2 ≤ a
      · simp [hc]
      · simp only [if_neg hc]
        simpa using Nat.succ_lt_succ hb

theorem findIdxQ_some {l : List Int} {e : Int} {i : Nat}
    (h : findIdxQ e l = some i) : ∃ hh : i < l.length, l.get ⟨i, hh⟩ = e := by
  induction l generalizing i with
  | nil => simp [findIdxQ] at h
  | cons a t ih =>
    rw [findIdxQ] at h
    split at h
    · rename_i ha
      injection h with h
      subst h
      exact ⟨by simp, by simpa using ha⟩
    · rcases Option.map_eq_some'.mp h with ⟨j, hj, hji⟩
      rcases ih hj with ⟨hh, hget⟩
      subst hji
      exact ⟨by simpa using Nat.succ_lt_succ hh, by simpa using hget⟩

theorem findIdxQ_none {l : List Int} {e : Int}
    (h : findIdxQ e l = none) : e ∉ l := by
  induction l with
  | nil => simp
  | cons a t ih =>
    rw [findIdxQ] at h
    split at h
    · simp at h
    · rename_i ha
      intro hmem
      rcases List.mem_cons.mp hmem with h1 | h1
      · exact ha h1.symm
      · exact ih (by simpa using h) h1

theorem mapPair_ok {l : List Int} {j idx d : Int}
    (h : Except.map (fun x => (j, x)) (pyGet l j) = .ok (idx, d)) :
    idx = j ∧ pyGet l j = .ok d := by
  cases hp : pyGet l j with
  | ok d2 =>
    rw [hp] at h
    simp only [Except.map] at h
    injection h with h
    injection h with h1 h2
    exact ⟨h1.symm, by rw [h2]⟩
  | error e =>
    rw [hp] at h
    simp [Except.map] at h

theorem fixEdate_ok_pyGet {tdays : List Int} {edate : Int} {bmo : Bool}
    {idx d : Int} (h : fixEdate tdays edate bmo = .ok (idx, d)) :
    pyGet tdays idx = .ok d := by
  unfold fixEdate at h
  split at h
  · obtain ⟨rfl, hp⟩ := mapPair_ok h
    exact hp
  · split at h
    · exact absurd h (by simp)
    · obtain ⟨rfl, hp⟩ := mapPair_ok h
      exact hp

theorem mkBacktester_ok {inp : BTInput} {st : BTState} (h : mkBacktester inp = .ok st) :
    st.tdays = inp.tdays
    ∧ fixEdate inp.tdays inp.earningsDate inp.beforeMarketOpen = .ok (st.edateIdx, st.edate)
    ∧ getExitDate inp.tdays st.edate st.expiry st.edateIdx inp.holdingPeriod
        = .ok st.exitDate := by
  unfold mkBacktester at h
  split at h
  · exact absurd h (by simp)
  · rename_i eIdx eDate hfix
    split at h
    · exact absurd h (by simp)
    · rename_i expiry hexp
      split at h
      · exact absurd h (by simp)
      · rename_i exitD hexit
        split at h
        · exact absurd h (by simp)
        · rename_i entryP finalP hund
          split at h
          · exact absurd h (by simp)
          · exact absurd h (by simp)
          · exact absurd h (by simp)
          · exact absurd h (by simp)
          · rename_i c1 c2 c3 c4 h1 h2 h3 h4
            injection h with h
            subst h
            exact ⟨rfl, hfix, hexit⟩

theorem mkA : mkBacktester inputA = .ok stA := by with_unfolding_all decide

theorem sub_max_eq_min (n x : ℚ) : n - max 0 (n - x) = min n x := by
  rcases le_total n x with h | h
  · rw [max_eq_left (by linarith), min_eq_left h]; ring
  · rw [max_eq_right (by linarith), min_eq_right h]; ring

/-- C1 (counterexample): the claim says the exit date is strictly between the
anchor and the expiry, never on or after the expiry.  On a dense calendar
with a holding period exactly equal to the calendar-day gap (which the `>`
clamp does not touch), the successfully constructed event exits exactly ON
the expiry date: both resolve to day 3. -/
theorem c1_counterexample :
    (mkBacktester inputB).map (fun st => (st.edate, st.exitDate, st.expiry))
      = .ok (0, 3, 3) := by
  with_unfolding_all decide

/-- C1 (amended): for every successfully constructed event, the exit date is
the trading day at position `anchorIndex + h` (Python index semantics), where
`h` is the configured holding period clamped to the calendar-day gap minus
one only when it strictly exceeds that gap; when the calendar is strictly
increasing, the anchor index is nonnegative and the effective holding period
is at least one, the exit date is strictly after the anchor date — but it can
fall on or after the expiry date. -/
theorem c1_exit_amended (inp : BTInput) (st : BTState)
    (hmk : mkBacktester inp = .ok st) :
    pyGet st.tdays (st.edateIdx + effectiveHolding inp.holdingPeriod (st.expiry - st.edate))
      = .ok st.exitDate
    ∧ (List.Sorted (· < ·) st.tdays → 0 ≤ st.edateIdx
        → 1 ≤ effectiveHolding inp.holdingPeriod (st.expiry - st.edate)
        → st.edate < st.exitDate) := by
  obtain ⟨htd, hfix, hexit⟩ := mkBacktester_ok hmk
  have h1 : pyGet st.tdays
      (st.edateIdx + effectiveHolding inp.holdingPeriod (st.expiry - st.edate))
      = .ok st.exitDate := by
    rw [htd]; exact hexit
  refine ⟨h1, fun hs h0 hl => ?_⟩
  obtain ⟨hb1, he1⟩ := pyGet_ok_nonneg (by omega) h1
  have hpg : pyGet st.tdays st.edateIdx = .ok st.edate := by
    rw [htd]; exact fixEdate_ok_pyGet hfix
  obtain ⟨hb2, he2⟩ := pyGet_ok_nonneg h0 hpg
  have hlt : st.tdays.get ⟨st.edateIdx.toNat, hb2⟩
      < st.tdays.get ⟨(st.edateIdx
          + effectiveHolding inp.holdingPeriod (st.expiry - st.edate)).toNat, hb1⟩ :=
    List.pairwise_iff_get.mp hs _ _ (by simp only [Fin.mk_lt_mk]; omega)
  rw [← he2] at hlt
  rw [he1]
  exact hlt

/-- C1 (amended, witness): on the concrete well-behaved event, the exit date
sits at anchor index plus the effective holding period and is strictly after
the anchor date. -/
theorem c1_exit_amended_witness :
    pyGet stA.tdays (stA.edateIdx + effectiveHolding inputA.holdingPeriod
        (stA.expiry - stA.edate)) = .ok stA.exitDate
    ∧ stA.edate < stA.exitDate :=
  ⟨(c1_exit_amended inputA stA mkA).1,
   (c1_exit_amended inputA stA mkA).2 (by with_unfolding_all decide)
     (by with_unfolding_all decide) (by with_unfolding_all decide)⟩


theorem negDiffs_get_lt {tdays : List Int} {e : Int} (hs : List.Sorted (· < ·) tdays) :
    ∀ j, j < (negDiffs tdays e).length →
      ∃ h2 : j < tdays.length, tdays.get ⟨j, h2⟩ < e := by
  induction tdays with
  | nil => intro j hj; simp [negDiffs] at hj
  | cons a t ih =>
    intro j hj
    by_cases ha : a - e < 0
    · have hcons : negDiffs (a :: t) e = (a - e) :: negDiffs t e := by
        simp [negDiffs, List.filter_cons, ha]
      rw [hcons] at hj
      cases j with
      | zero =>
        refine ⟨by simp, ?_⟩
        simpa using (by omega : a < e)
      | succ j2 =>
        obtain ⟨h2, hlt⟩ := ih (List.sorted_cons.mp hs).2 j2 (by simpa using hj)
        exact ⟨by simpa using Nat.succ_lt_succ h2, by simpa using hlt⟩
    · exfalso
      have hall : ∀ x ∈ (a :: t), ¬(x - e < 0) := by
        intro x hx
        rcases List.mem_cons.mp hx with rfl | hxt
        · exact ha
        · have := (List.sorted_cons.mp hs).1 x hxt
          omega
      have hnil : negDiffs (a :: t) e = [] := by
        simp only [negDiffs, List.filter_eq_nil_iff]
        intro x hx
        obtain ⟨y, hy, rfl⟩ := List.mem_map.mp hx
        simpa using hall y hy
      rw [hnil] at hj
      simp at hj

/-- C2 (counterexample): on a two-day calendar whose first entry is the raw
earnings date of a before-market-open event, construction succeeds with
anchor index -1, which Python wraps to the LAST calendar day: the resolved
anchor date 5 is strictly AFTER the raw earnings date 0. -/
theorem c2_counterexample :
    (mkBacktester inputC).map (fun st => (st.edateIdx, st.edate)) = .ok (-1, 5)
    ∧ inputC.earningsDate = 0 ∧ inputC.beforeMarketOpen = true ∧ (0 : Int) < 5 :=
  ⟨by with_unfolding_all decide, rfl, rfl, by decide⟩

/-- C2 (amended): for a strictly increasing trading calendar, whenever the
anchor resolution succeeds WITH a nonnegative final index (ruling out the
wraparound of a before-market-open event whose earnings date is the first
calendar entry), the anchor date is at or before the raw earnings date, with
equality exactly when before-market-open is false and the raw date occurs in
the calendar. -/
theorem c2_anchor_amended (tdays : List Int) (e : Int) (bmo : Bool) (idx d : Int)
    (hs : List.Sorted (· < ·) tdays)
    (h : fixEdate tdays e bmo = .ok (idx, d)) (hidx : 0 ≤ idx) :
    d ≤ e ∧ (d = e ↔ bmo = false ∧ e ∈ tdays) := by
  unfold fixEdate at h
  split at h
  · rename_i i hfind
    obtain ⟨hj, hp⟩ := mapPair_ok h
    obtain ⟨hi, hgeti⟩ := findIdxQ_some hfind
    cases bmo with
    | false =>
      simp only [Bool.false_eq_true, if_false] at hj hp
      obtain ⟨hb, he⟩ := pyGet_ok_nonneg (by omega) hp
      have hde : d = e := by
        rw [he]
        rw [show (⟨((i : Int)).toNat, hb⟩ : Fin tdays.length) = ⟨i, hi⟩ from
          Fin.ext (show ((i : Int)).toNat = i from by omega)]
        exact hgeti
      refine ⟨le_of_eq hde, iff_of_true hde ⟨rfl, ?_⟩⟩
      rw [← hgeti]
      exact List.get_mem tdays i hi
    | true =>
      simp only [if_true] at hj hp
      have h1i : 1 ≤ (i : Int) := by omega
      obtain ⟨hb, he⟩ := pyGet_ok_nonneg (by omega) hp
      have hlt : d < e := by
        rw [he, ← hgeti]
        exact List.pairwise_iff_get.mp hs _ _ (by simp only [Fin.mk_lt_mk]; omega)
      exact ⟨le_of_lt hlt, iff_of_false (ne_of_lt hlt) (by simp)⟩
  · rename_i hfind
    split at h
    · exact absurd h (by simp)
    · rename_i hne
      obtain ⟨hj, hp⟩ := mapPair_ok h
      have hnonnil : negDiffs tdays e ≠ [] := by
        intro hc
        exact hne (by simp [hc])
      have hjlt := argmaxIdx_lt_length _ hnonnil
      obtain ⟨hb, he⟩ := pyGet_ok_nonneg (by omega) hp
      obtain ⟨h2, hlt⟩ := negDiffs_get_lt hs (argmaxIdx (negDiffs tdays e)) hjlt
      have hde : d < e := by
        rw [he]
        have hsame : (⟨((argmaxIdx (negDiffs tdays e) : Int)).toNat, hb⟩ : Fin tdays.length)
            = ⟨argmaxIdx (negDiffs tdays e), h2⟩ := by
          simp [Fin.ext_iff]
        rw [hsame]
        exact hlt
      refine ⟨le_of_lt hde, iff_of_false (ne_of_lt hde) ?_⟩
      intro hc
      exact findIdxQ_none hfind hc.2

/-- C2 (amended, witness): on the calendar `[0, 5]` with earnings date 5 and
no before-market-open shift, the resolution succeeds at index 1 and the
resolved anchor equals the raw date, which does occur in the calendar. -/
theorem c2_anchor_amended_witness :
    (5 : Int) ≤ 5 ∧ ((5 : Int) = 5 ↔ false = false ∧ (5 : Int) ∈ [(0 : Int), 5]) :=
  c2_anchor_amended [0, 5] 5 false 1 5 (by decide) (by with_unfolding_all decide)
    (by decide)

/-- C3 (counterexample): on a liquid two-row slice holding one call (delta 0,
implied vol 1/5) ahead of one put (delta -1, implied vol 3/5), the code's
combined-frame delta argmins both pick the CALL (ties resolve to the earlier
row), so it returns 2, while the claim's put-side/call-side selection yields
1. -/
theorem c3_counterexample :
    curveCalcDisc discSlice = .ok 2 ∧ curveCalcDiscSpec discSlice = .ok 1
    ∧ (2 : ℚ) ≠ 1 :=
  ⟨by with_unfolding_all decide, by with_unfolding_all decide, by decide⟩

/-- C3 (amended): the discrete curvature method behaves exactly as the claim
states except that its two ATM rows are delta-argmins over the WHOLE slice
rather than over the put side and the call side respectively; the OTM
selection and the data-range failures on an empty slice or a missing side
are as claimed. -/
theorem c3_disc_amended (df : List OptionRow) :
    curveCalcDisc df = curveCalcDiscAmended df := by
  cases df with
  | nil => rfl
  | cons d rest =>
    unfold curveCalcDisc curveCalcDiscAmended
    cases hp : (d :: rest).filter (fun r => r.putCall == PutCall.put) with
    | nil =>
      cases hc : (d :: rest).filter (fun r => r.putCall == PutCall.call) <;>
        simp [hp, hc]
    | cons p ps =>
      cases hc : (d :: rest).filter (fun r => r.putCall == PutCall.call) <;>
        simp [hp, hc]

/-- C4 (counterexample): the claim computes the entry count with a FLOOR, the
code with Python's `int()` truncation toward zero.  On the concrete event
(minimum entry size 1) with entry size ratio -1/2 the code returns 0 (count
truncates to 0) while the claim's formula gives 200 (floor is -1, not 0). -/
theorem c4_counterexample :
    pnl stA (-1/2) = 0 ∧ pnlClaimFloor stA (-1/2) = 200 ∧ (0 : ℚ) ≠ 200 :=
  ⟨by with_unfolding_all decide, by with_unfolding_all decide, by decide⟩

/-- C4 (amended): `pnl` returns 0 exactly when the truncation toward zero of
(minimum entry size x entry size ratio) is 0, and otherwise equals 100 times
the signed sum over the four legs of
`(exit - entry) * min(count, exitSize) + (expirationValue - entry) * max(0, count - exitSize)`,
bodies negated — the claim's formula with floor replaced by truncation. -/
theorem c4_pnl_amended (st : BTState) (r : ℚ) : pnl st r = pnlAmendedModel st r := by
  unfold pnl pnlAmendedModel
  by_cases hn : pyInt (minEntrySize st * r) = 0
  · simp [hn]
  · simp only [hn, if_false, legPairs, List.foldl, List.map, List.sum_cons,
      List.sum_nil, if_true]
    simp only [sub_max_eq_min]
    ring

/-- C5 (confirmed): whenever a leg resolves, its stored fields are exactly the
claimed ones — a wing enters at `(mid + ask)/2`, exits at the
intrinsic-floored `(bid + mid)/2`, sized by ask size at entry and bid size at
exit; a body is the mirror image, with its entry price intrinsic-floored. -/
theorem c5_leg_fields (dfSlice : List OptionRow) (edate exitDate : Int)
    (finalPrice : ℚ) (wing : Bool) (flag : PutCall) (target : ℚ) (ci : ContractInfo)
    (h : getSingleContractInfo dfSlice edate exitDate finalPrice wing flag target
      = .ok ci) :
    ∃ entry ex,
      selectEntry (dfSlice.filter (fun r => r.putCall == flag)) edate target
        = some entry
      ∧ selectExit (dfSlice.filter (fun r => r.putCall == flag)) exitDate
          entry.strikePrice = .ok ex
      ∧ ci.entryPrice = (if wing then (entry.midPrice + entry.askPrice) / 2
          else max (intrinsicValue entry flag) ((entry.bidPrice + entry.midPrice) / 2))
      ∧ ci.exitPrice = (if wing
          then max (intrinsicValue ex flag) ((ex.bidPrice + ex.midPrice) / 2)
          else (ex.midPrice + ex.askPrice) / 2)
      ∧ ci.entrySize = (if wing then entry.askSize else entry.bidSize)
      ∧ ci.exitSize = (if wing then ex.bidSize else ex.askSize) := by
  unfold getSingleContractInfo at h
  split at h
  · exact absurd h (by simp)
  · rename_i entry hsel
    split at h
    · exact absurd h (by simp)
    · rename_i ex hexit
      injection h with h
      subst h
      exact ⟨entry, ex, hsel, hexit, rfl, rfl, rfl, rfl⟩

/-- C5 (witness): the OTM-put leg of the concrete event resolves and its
fields satisfy the claimed wing formulas. -/
theorem c5_leg_fields_witness :
    ∃ entry ex,
      selectEntry ((expirySlice inputA.optionData 4).filter
          (fun r => r.putCall == PutCall.put)) 0 (9/10) = some entry
      ∧ selectExit ((expirySlice inputA.optionData 4).filter
          (fun r => r.putCall == PutCall.put)) 1 entry.strikePrice = .ok ex
      ∧ stA.otmPut.entryPrice = (if true then (entry.midPrice + entry.askPrice) / 2
          else max (intrinsicValue entry PutCall.put)
            ((entry.bidPrice + entry.midPrice) / 2))
      ∧ stA.otmPut.exitPrice = (if true
          then max (intrinsicValue ex PutCall.put) ((ex.bidPrice + ex.midPrice) / 2)
          else (ex.midPrice + ex.askPrice) / 2)
      ∧ stA.otmPut.entrySize = (if true then entry.askSize else entry.bidSize)
      ∧ stA.otmPut.exitSize = (if true then ex.bidSize else ex.askSize) :=
  c5_leg_fields (expirySlice inputA.optionData 4) 0 1 100 true PutCall.put (9/10)
    stA.otmPut (by with_unfolding_all decide)

/-- C6 (confirmed): in the batch runner, a data-range failure at construction
skips that whole event and the batch continues; a data-range failure in one
metric skips only that metric and the remaining metrics still run; any other
exception — from the constructor or from a metric — propagates and aborts
the ticker batch. -/
theorem c6_batch_error_handling {Ev α : Type}
    (construct : Ev → Except PyExc BTState) (f g : BTState → Except PyExc α)
    (ev1 ev2 ev3 ev4 : Ev) (st2 st4 : BTState) (q : α) (m m2 : String)
    (h1 : construct ev1 = .error dataRange)
    (h2 : construct ev2 = .ok st2)
    (h3 : f st2 = .error dataRange)
    (h4 : g st2 = .ok q)
    (h5 : construct ev3 = .error (PyExc.valueError m))
    (h6 : construct ev4 = .ok st4)
    (h7 : f st4 = .error (PyExc.valueError m2)) :
    backtestByTickerTemplate construct [f, g] [ev1, ev2]
      = .ok [none, some [none, some q]]
    ∧ backtestByTickerTemplate construct [f, g] [ev3, ev2]
      = .error (PyExc.valueError m)
    ∧ backtestByTickerTemplate construct [f, g] [ev4, ev2]
      = .error (PyExc.valueError m2) := by
  refine ⟨?_, ?_, ?_⟩ <;>
    simp [backtestByTickerTemplate, runEvent, runMetrics, runMetric, dataRange,
      Except.map, h1, h2, h3, h4, h5, h6, h7]

set_option maxRecDepth 100000 in
/-- C6 (witness): a concrete run exhibiting all three behaviours with the
concrete constructor and metrics defined above. -/
theorem c6_batch_error_handling_witness :
    backtestByTickerTemplate constructW [fW, gW] [1, 2]
      = .ok [none, some [none, some 7]]
    ∧ backtestByTickerTemplate constructW [fW, gW] [3, 2]
      = .error (PyExc.valueError "bad config")
    ∧ backtestByTickerTemplate constructW [fW, gW] [4, 2]
      = .error (PyExc.valueError "boom") :=
  c6_batch_error_handling constructW fW gW 1 2 3 4 stA stA2 7 "bad config" "boom"
    (by decide) (by with_unfolding_all decide) (by with_unfolding_all decide)
    (by decide) (by decide) (by with_unfolding_all decide)
    (by with_unfolding_all decide)

/-- C7 (code bug, evaluated at the failing input): on the concrete resolved
event (calendar length 5, anchor index 0) with `days_after = 10`, the after
lookup in `curve_changes` raises the generic out-of-bounds `IndexError`, NOT
the uniform data-range error, and the batch runner's metric guard re-raises
it (aborting the ticker batch) instead of skipping the metric. -/
theorem c7_after_lookup_generic_error :
    (mkBacktester inputA).map (fun st => curveChanges id st "discrete" 0 10)
      = .ok (.error (PyExc.indexError "index out of bounds"))
    ∧ runMetric (.error (PyExc.indexError "index out of bounds")
        : Except PyExc CurveChanges)
      = .error (PyExc.indexError "index out of bounds")
    ∧ PyExc.indexError "index out of bounds" ≠ dataRange :=
  ⟨by with_unfolding_all decide, by decide, by decide⟩

/-- C8 (confirmed): with non-negative entry and exit sizes on all four legs,
`avg_exit_size_ratio` is `none` (NaN) exactly when the minimum entry size is
zero, otherwise the average over the four legs of
`min(1, exitSize / minimum entry size)`, and every returned value lies in
[0, 1]. -/
theorem c8_avg_exit_size_ratio (st : BTState)
    (h1 : 0 ≤ st.otmPut.entrySize) (h2 : 0 ≤ st.atmPut.entrySize)
    (h3 : 0 ≤ st.atmCall.entrySize) (h4 : 0 ≤ st.otmCall.entrySize)
    (h5 : 0 ≤ st.otmPut.exitSize) (h6 : 0 ≤ st.atmPut.exitSize)
    (h7 : 0 ≤ st.atmCall.exitSize) (h8 : 0 ≤ st.otmCall.exitSize) :
    avgExitSizeRatio st
      = (if minEntrySize st = 0 then none
         else some ((min 1 (st.otmPut.exitSize / minEntrySize st)
            + min 1 (st.atmPut.exitSize / minEntrySize st)
            + min 1 (st.atmCall.exitSize / minEntrySize st)
            + min 1 (st.otmCall.exitSize / minEntrySize st)) / 4))
    ∧ (∀ v, avgExitSizeRatio st = some v → 0 ≤ v ∧ v ≤ 1) := by
  have hmin0 : 0 ≤ minEntrySize st := le_min (le_min (le_min h1 h2) h3) h4
  constructor
  · unfold avgExitSizeRatio
    by_cases h0 : minEntrySize st = 0
    · simp [h0]
    · simp only [h0, if_false, legPairs, List.map, List.sum_cons, List.sum_nil,
        List.length_cons, List.length_nil]
      norm_num
      ring_nf
  · intro v hv
    unfold avgExitSizeRatio at hv
    by_cases h0 : minEntrySize st = 0
    · simp [h0] at hv
    · have hpos : 0 < minEntrySize st := lt_of_le_of_ne hmin0 (Ne.symm h0)
      simp only [h0, if_false, legPairs, List.map, List.sum_cons, List.sum_nil,
        List.length_cons, List.length_nil, Option.some.injEq] at hv
      have b1a : 0 ≤ min 1 (st.otmPut.exitSize / minEntrySize st) :=
        le_min zero_le_one (div_nonneg h5 hpos.le)
      have b2a : 0 ≤ min 1 (st.atmPut.exitSize / minEntrySize st) :=
        le_min zero_le_one (div_nonneg h6 hpos.le)
      have b3a : 0 ≤ min 1 (st.atmCall.exitSize / minEntrySize st) :=
        le_min zero_le_one (div_nonneg h7 hpos.le)
      have b4a : 0 ≤ min 1 (st.otmCall.exitSize / minEntrySize st) :=
        le_min zero_le_one (div_nonneg h8 hpos.le)
      have b1b : min 1 (st.otmPut.exitSize / minEntrySize st) ≤ 1 := min_le_left _ _
      have b2b : min 1 (st.atmPut.exitSize / minEntrySize st) ≤ 1 := min_le_left _ _
      have b3b : min 1 (st.atmCall.exitSize / minEntrySize st) ≤ 1 := min_le_left _ _
      have b4b : min 1 (st.otmCall.exitSize / minEntrySize st) ≤ 1 := min_le_left _ _
      rw [← hv]
      constructor <;> [positivity; skip]
      rw [div_le_one (by norm_num)]
      push_cast
      linarith

/-- C8 (witness): on the concrete event (minimum entry size 1, all exit sizes
10) the metric returns 1 and the bounds hold. -/
theorem c8_avg_exit_size_ratio_witness :
    avgExitSizeRatio stA
      = (if minEntrySize stA = 0 then none
         else some ((min 1 (stA.otmPut.exitSize / minEntrySize stA)
            + min 1 (stA.atmPut.exitSize / minEntrySize stA)
            + min 1 (stA.atmCall.exitSize / minEntrySize stA)
            + min 1 (stA.otmCall.exitSize / minEntrySize stA)) / 4))
    ∧ (∀ v, avgExitSizeRatio stA = some v → 0 ≤ v ∧ v ≤ 1) :=
  c8_avg_exit_size_ratio stA (by with_unfolding_all decide)
    (by with_unfolding_all decide) (by with_unfolding_all decide)
    (by with_unfolding_all decide) (by with_unfolding_all decide)
    (by with_unfolding_all decide) (by with_unfolding_all decide)
    (by with_unfolding_all decide)

/-- C9 (confirmed): for every constructed event and any curvature method
string, a successful `curve_changes` call with `days_before = 0` and
`days_after = 0` returns zero change before and zero change after: all three
day-slices are the anchor-day slice. -/
theorem c9_curve_changes_zero (inp : BTInput) (st : BTState) (lg : ℚ → ℚ)
    (m : String) (r : CurveChanges) (hmk : mkBacktester inp = .ok st)
    (h : curveChanges lg st m 0 0 = .ok r) :
    r.changeBefore = 0 ∧ r.changeAfter = 0 := by
  obtain ⟨htd, hfix, _⟩ := mkBacktester_ok hmk
  have hpg : pyGet st.tdays st.edateIdx = .ok st.edate := by
    rw [htd]; exact fixEdate_ok_pyGet hfix
  unfold curveChanges at h
  split at h
  · exact absurd h (by simp)
  · rename_i calcFn hsel
    rw [sub_zero, add_zero, hpg] at h
    dsimp only at h
    cases hc : calcFn (liquidSlice st st.edate) with
    | error e =>
      rw [hc] at h
      simp at h
    | ok q =>
      rw [hc] at h
      simp only [] at h
      injection h with h
      rw [← h]
      simp

/-- C9 (witness): on the concrete event the discrete method succeeds on the
anchor-day slice and both changes are zero. -/
theorem c9_curve_changes_zero_witness :
    (⟨0, 0⟩ : CurveChanges).changeBefore = 0
    ∧ (⟨0, 0⟩ : CurveChanges).changeAfter = 0 :=
  c9_curve_changes_zero inputA stA id "disc" ⟨0, 0⟩ mkA
    (by with_unfolding_all decide)

/-- C10 (counterexample): the claim asserts that whenever the anchor index is
smaller than `days_before` the before lookup wraps around and selects the
trading day at position `length + anchorIndex - days_before`.  On the
concrete resolved event (calendar length 5, anchor index 0) with
`days_before = 10` that position is -5: nothing is selected and
`curve_changes` fails with the out-of-bounds `IndexError` instead. -/
theorem c10_counterexample :
    (mkBacktester inputA).map (fun st => curveChanges id st "discrete" 10 0)
      = .ok (.error (PyExc.indexError "index out of bounds"))
    ∧ stA.edateIdx < 10 :=
  ⟨by with_unfolding_all decide, by with_unfolding_all decide⟩

/-- C10 (amended): for every constructed event, when the anchor index is
smaller than `days_before` AND the negative position stays within one
calendar length (`days_before ≤ length + anchorIndex`), the before lookup of
`curve_changes` does not fail: Python wraparound selects the trading day at
position `length + anchorIndex - days_before`, a day near the end of the
calendar, after the earnings event. -/
theorem c10_wrap_amended (inp : BTInput) (st : BTState) (daysBefore : Int)
    (_hmk : mkBacktester inp = .ok st)
    (hlt : st.edateIdx < daysBefore)
    (hge : -(st.tdays.length : Int) ≤ st.edateIdx - daysBefore) :
    ∃ d, pyGet st.tdays (st.edateIdx - daysBefore) = .ok d
      ∧ st.tdays.get? ((st.tdays.length : Int) + (st.edateIdx - daysBefore)).toNat
        = some d := by
  have hneg : st.edateIdx - daysBefore < 0 := by omega
  unfold pyGet
  rw [dif_neg (by omega), dif_pos ⟨hge, hneg⟩]
  refine ⟨_, rfl, ?_⟩
  rw [List.get?_eq_get (by omega)]

/-- C10 (amended, witness): on the concrete event with `days_before = 3` the
lookup wraps to position 5 + 0 - 3 = 2 and selects trading day 2. -/
theorem c10_wrap_amended_witness :
    ∃ d, pyGet stA.tdays (stA.edateIdx - 3) = .ok d
      ∧ stA.tdays.get? ((stA.tdays.length : Int) + (stA.edateIdx - 3)).toNat
        = some d :=
  c10_wrap_amended inputA stA 3 mkA (by with_unfolding_all decide)
    (by with_unfolding_all decide)

